import Mathlib

/-!
Shallow embedding of the roxom-challenge market maker.

The embedding mirrors the Python sources:
* `settings.py` — static configuration constants;
* `roxom/state.py` — `AccountDataState` (order map + bounded history);
* `market_data/state.py` — `MarketDataState` (latest bid/ask per symbol);
* `strategy/pricing.py` — `FairPriceCalculator`;
* `strategy/market_maker.py` — the quoting cycle, the emergency cleanup
  and the position-polling step.

Network calls (the `RoxomClient` gateway) are modelled by an oracle
structure giving the outcome of each call: `ok` carries the decoded
response, `exn` stands for a raised exception (transport failure or a
venue error surfaced by `raise_for_status`).  Wall-clock strings
(`datetime.utcnow().isoformat()`) are passed in as explicit `now`
arguments.  Python `float` arithmetic is embedded as exact rational
arithmetic over `ℚ`; a Python `ZeroDivisionError` / `TypeError` raise is
modelled explicitly where reachable.
-/

namespace Roxom

/-! ### settings.py -/

def SYMBOL : String := "GOLD-BTC"

def SPREAD_BPS : ℚ := 20

def ORDER_SIZE : String := "1.00"

def TICK_SIZE : ℚ := 1 / 1000000

def PRICE_SYMBOLS : List String := ["paxgusdt", "btcusdt"]

/-! ### roxom/state.py — AccountDataState

Order dictionaries are embedded as structures whose fields are
`Option String`, matching `order_data.get(key)` which yields `None`
for a missing key.  The `orders` dict is an association list keyed by
order id; the history is a plain list appended at the end, exactly as
the Python list. -/

/-- One stored order (the value of `self.orders[order_id]`). -/
structure OrderData where
  orderId : String
  accountId : Option String
  symbol : Option String
  status : Option String
  remainingQty : Option String
  executedQty : Option String
  avgPx : Option String
  timestamp : Option String
  lastUpdated : String
deriving DecidableEq

/-- One inbound order-update event (`order_data` argument of
`update_order`); every field is optional, as `dict.get` is. -/
structure OrderEvent where
  orderId : Option String := none
  accountId : Option String := none
  symbol : Option String := none
  status : Option String := none
  remainingQty : Option String := none
  executedQty : Option String := none
  avgPx : Option String := none
  timestamp : Option String := none
deriving DecidableEq

/-- One entry of `self.order_history`. -/
structure HistoryEntry where
  orderId : String
  previousStatus : Option String
  newStatus : Option String
  executedQty : Option String
  remainingQty : Option String
  avgPx : Option String
  timestamp : Option String
  processedAt : String
deriving DecidableEq

/-- The order dictionary `self.orders`, keyed by order id. -/
abbrev OrdersMap := List (String × OrderData)

/-- `self.orders.get(order_id)`. -/
def lookupOrder (m : OrdersMap) (k : String) : Option OrderData :=
  (m.find? (fun p => p.1 = k)).map (·.2)

/-- `self.orders[order_id] = value` (dict assignment: replace the
existing binding in place, otherwise append a new one, preserving
insertion order as a Python dict does). -/
def insertOrder (m : OrdersMap) (k : String) (v : OrderData) : OrdersMap :=
  if m.any (fun p => p.1 = k) then
    m.map (fun p => if p.1 = k then (k, v) else p)
  else
    m ++ [(k, v)]

/-- `AccountDataState`: order map plus the status-change history. -/
structure AccountDataState where
  orders : OrdersMap
  order_history : List HistoryEntry
deriving DecidableEq

/-- `AccountDataState.__init__`. -/
def AccountDataState.init : AccountDataState := ⟨[], []⟩

/-- Terminal statuses as in `get_active_orders` / `is_order_active`. -/
def terminal_states : List String := ["filled", "cancelled", "rejected", "inactive"]

/-- `AccountDataState.update_order`.  `now` stands for
`datetime.utcnow().isoformat()`.  The guard `if not order_id` skips an
absent (`None`) id and also the empty string, which is falsy in
Python. -/
def update_order (now : String) (e : OrderEvent) (s : AccountDataState) : AccountDataState :=
  match e.orderId with
  | none => s
  | some oid =>
    if oid = "" then s
    else
      let previous_status : Option String :=
        match lookupOrder s.orders oid with
        | none => some "unknown"
        | some od => od.status
      let new_order : OrderData :=
        { orderId := oid, accountId := e.accountId, symbol := e.symbol,
          status := e.status, remainingQty := e.remainingQty,
          executedQty := e.executedQty, avgPx := e.avgPx,
          timestamp := e.timestamp, lastUpdated := now }
      let history_entry : HistoryEntry :=
        { orderId := oid, previousStatus := previous_status,
          newStatus := e.status, executedQty := e.executedQty,
          remainingQty := e.remainingQty, avgPx := e.avgPx,
          timestamp := e.timestamp, processedAt := now }
      let h1 := s.order_history ++ [history_entry]
      let h2 := if h1.length > 1000 then h1.drop (h1.length - 1000) else h1
      { orders := insertOrder s.orders oid new_order, order_history := h2 }

/-- `AccountDataState.get_order`. -/
def get_order (s : AccountDataState) (oid : String) : Option OrderData :=
  lookupOrder s.orders oid

/-- `AccountDataState.get_order_status` (returns `None` both for an
unknown order and for a stored `None` status, as the Python does). -/
def get_order_status (s : AccountDataState) (oid : String) : Option String :=
  (lookupOrder s.orders oid).bind (·.status)

/-- `AccountDataState.get_active_orders`. -/
def get_active_orders (s : AccountDataState) : OrdersMap :=
  s.orders.filter (fun p =>
    match p.2.status with
    | none => true
    | some st => ¬ terminal_states.contains st)

/-- `AccountDataState.get_filled_orders`. -/
def get_filled_orders (s : AccountDataState) : OrdersMap :=
  s.orders.filter (fun p => p.2.status = some "filled")

/-- `AccountDataState.is_order_active`: `False` for an unknown order,
otherwise "status not in the terminal set" (a stored `None` status is
not in the set, hence active). -/
def is_order_active (s : AccountDataState) (oid : String) : Bool :=
  match lookupOrder s.orders oid with
  | none => false
  | some od =>
    match od.status with
    | none => true
    | some st => ¬ terminal_states.contains st

/-- Applying a list of `(now, event)` pairs in order. -/
def apply_events (evs : List (String × OrderEvent)) (s : AccountDataState) :
    AccountDataState :=
  evs.foldl (fun a p => update_order p.1 p.2 a) s

/-! ### market_data/state.py — MarketDataState

`__init__` creates `self.prices` with exactly the two keys
`PAXGUSDT` and `BTCUSDT` (the upper-cased `settings.PRICE_SYMBOLS`),
each mapping to `{'bid': None, 'ask': None}`; `update_price` only ever
overwrites an existing key, so the key set is fixed and the dict is
embedded as a two-field record. -/

/-- The per-symbol entry `{'bid': ..., 'ask': ...}`; `None` until the
first tick. -/
structure PriceEntry where
  bid : Option ℚ
  ask : Option ℚ
deriving DecidableEq

/-- `MarketDataState`: the `prices` dict, with its fixed key set. -/
structure MarketDataState where
  paxg : PriceEntry
  btc : PriceEntry
deriving DecidableEq

/-- `MarketDataState.__init__`. -/
def MarketDataState.init : MarketDataState := ⟨⟨none, none⟩, ⟨none, none⟩⟩

/-- `MarketDataState.get_price`. -/
def get_price (s : MarketDataState) (sym : String) : Option PriceEntry :=
  if sym = "PAXGUSDT" then some s.paxg
  else if sym = "BTCUSDT" then some s.btc
  else none

/-- `MarketDataState.update_price` (`if symbol in self.prices`). -/
def update_price (s : MarketDataState) (sym : String) (bid ask : ℚ) :
    MarketDataState :=
  if sym = "PAXGUSDT" then { s with paxg := ⟨some bid, some ask⟩ }
  else if sym = "BTCUSDT" then { s with btc := ⟨some bid, some ask⟩ }
  else s

/-- `MarketDataState.has_data`: every listed symbol has an entry with
both sides non-`None`. -/
def has_data (s : MarketDataState) (symbols : List String) : Bool :=
  symbols.all (fun sym =>
    match get_price s sym with
    | none => false
    | some p => p.bid.isSome && p.ask.isSome)

/-! ### strategy/pricing.py — FairPriceCalculator -/

/-- Python `str.upper()` on the ASCII symbol names (character-wise
upper-casing; `String.toUpper` itself, whose helper recursion does not
reduce definitionally, computes the same string). -/
def pyUpper (s : String) : String := ⟨s.data.map Char.toUpper⟩

/-- Outcome of `FairPriceCalculator.get_fair_price`: Python returns
`None`, returns a float, or raises (`TypeError` on `None` arithmetic,
`ZeroDivisionError` on a zero midpoint divisor). -/
inductive FairPriceResult
  | absent
  | raises
  | price (p : ℚ)
deriving DecidableEq

/-- `FairPriceCalculator.get_fair_price`. -/
def get_fair_price (s : MarketDataState) : FairPriceResult :=
  if ¬ has_data s (PRICE_SYMBOLS.map pyUpper) then .absent
  else
    match get_price s "PAXGUSDT", get_price s "BTCUSDT" with
    | some paxg_data, some btc_data =>
      match paxg_data.bid, paxg_data.ask, btc_data.bid, btc_data.ask with
      | some pb, some pa, some bb, some ba =>
        let paxg_mid := (pb + pa) / 2
        let btc_mid := (bb + ba) / 2
        if btc_mid = 0 then .raises
        else .price (paxg_mid / btc_mid)
      | _, _, _, _ => .raises
    | _, _ => .raises

/-- Python's built-in `round` on floats: round half to even. -/
def roundHalfEven (q : ℚ) : ℤ :=
  let f := ⌊q⌋
  let r := q - f
  if r < 1/2 then f
  else if 1/2 < r then f + 1
  else if Even f then f else f + 1

/-- `FairPriceCalculator.calculate_bid_ask_prices` (uses the
`settings` constants, as the source does). -/
def calculate_bid_ask_prices (fair_price : ℚ) : ℚ × ℚ :=
  let spread := fair_price * (SPREAD_BPS / 10000)
  let bid_price := fair_price - spread / 2
  let ask_price := fair_price + spread / 2
  ((roundHalfEven (bid_price / TICK_SIZE) : ℚ) * TICK_SIZE,
   (roundHalfEven (ask_price / TICK_SIZE) : ℚ) * TICK_SIZE)

/-! ### strategy/market_maker.py — MarketMaker

Each REST round-trip is modelled by an oracle value: `ok` carries the
decoded response, `exn` a raised exception (transport failure, or a
venue error body turned into an exception by `raise_for_status`). -/

/-- Outcome of one gateway call. -/
inductive CallResult (α : Type)
  | ok (response : α)
  | exn
deriving DecidableEq

/-- The fields of `result['data']` read after a successful
`place_order`. -/
structure PlaceResponse where
  orderId : String
  accountId : Option String
deriving DecidableEq

/-- Oracle for the gateway calls issued during one cycle. -/
structure Gateway where
  cancel_order : String → CallResult Unit
  place_bid : CallResult PlaceResponse
  place_ask : CallResult PlaceResponse
  cancel_all_orders : CallResult Bool

/-- `self.current_orders` (insertion order: `bid_id` then `ask_id`). -/
structure CurrentOrders where
  bid_id : Option String
  ask_id : Option String
deriving DecidableEq

/-- The `MarketMaker` fields the quoting and cleanup paths touch. -/
structure MMState where
  market_state : MarketDataState
  account_state : AccountDataState
  current_orders : CurrentOrders
deriving DecidableEq

/-- The in-place mutation `order['status'] = 'cancelled'` guarded by
`if order:` (`self.account_state.get_order(order_id)`). -/
def set_status_cancelled (a : AccountDataState) (oid : String) : AccountDataState :=
  match lookupOrder a.orders oid with
  | none => a
  | some od =>
    { a with orders := insertOrder a.orders oid { od with status := some "cancelled" } }

/-- The `orders_to_cancel` list of `quote_market`: slot ids that are
truthy (`if order_id:` — non-`None` and non-empty) and still active. -/
def orders_to_cancel (s : MMState) : List String :=
  ([s.current_orders.bid_id, s.current_orders.ask_id].filterMap id).filter
    (fun oid => (oid != "") && is_order_active s.account_state oid)

/-- Processing of one entry of `cancellation_results`: an `ok` outcome
marks the order cancelled locally, an exception is only logged. -/
def cancel_step (gw : Gateway) (a : AccountDataState) (oid : String) : AccountDataState :=
  match gw.cancel_order oid with
  | .exn => a
  | .ok _ => set_status_cancelled a oid

/-- The cancel phase of `quote_market`: issue a cancel for every entry
of `orders_to_cancel` (`asyncio.gather(..., return_exceptions=True)`
collects each outcome independently) and fold the per-order result
processing over them. -/
def cancel_phase (gw : Gateway) (s : MMState) : MMState :=
  { s with account_state := (orders_to_cancel s).foldl (cancel_step gw) s.account_state }

/-- The registration event for the bid side (note: no `avgPx` key). -/
def bid_register_event (now : String) (r : PlaceResponse) : OrderEvent :=
  { orderId := some r.orderId, accountId := r.accountId, symbol := some SYMBOL,
    status := some "pendingsubmit", remainingQty := some ORDER_SIZE,
    executedQty := some "0.00", timestamp := some now }

/-- The registration event for the ask side (`avgPx` present). -/
def ask_register_event (now : String) (r : PlaceResponse) : OrderEvent :=
  { orderId := some r.orderId, accountId := r.accountId, symbol := some SYMBOL,
    status := some "pendingsubmit", remainingQty := some ORDER_SIZE,
    executedQty := some "0.00", avgPx := some "0.00000000",
    timestamp := some now }

/-- The place phase of `quote_market`:
`bid_result, ask_result = await asyncio.gather(bid_task, ask_task)`
has no `return_exceptions=True`, so if either placement raises the
exception propagates to the surrounding `except` before any slot or
registration update runs; only when both succeed are the two ids
written into the slots and registered (bid first, then ask). -/
def place_phase (gw : Gateway) (now : String) (s : MMState) : MMState :=
  match gw.place_bid, gw.place_ask with
  | .ok bres, .ok ares =>
    let s1 : MMState :=
      { s with
        current_orders := { s.current_orders with bid_id := some bres.orderId },
        account_state := update_order now (bid_register_event now bres) s.account_state }
    { s1 with
      current_orders := { s1.current_orders with ask_id := some ares.orderId },
      account_state := update_order now (ask_register_event now ares) s1.account_state }
  | _, _ => s

/-- Result of one `quote_market` call: the post-state, the ids for
which a gateway cancel was issued, and whether the place phase was
reached. -/
structure QuoteOutcome where
  state : MMState
  cancel_calls : List String
  place_attempted : Bool
deriving DecidableEq

/-- `MarketMaker.quote_market`.  `if not fair_price:` skips the cycle
both when `get_fair_price` returned `None` and when it returned the
falsy float `0.0`; an exception raised while computing the fair price
is caught by the outer `except` with no state change. -/
def quote_market (gw : Gateway) (now : String) (s : MMState) : QuoteOutcome :=
  match get_fair_price s.market_state with
  | .absent => ⟨s, [], false⟩
  | .raises => ⟨s, [], false⟩
  | .price fp =>
    if fp = 0 then ⟨s, [], false⟩
    else
      let s1 := cancel_phase gw s
      let s2 := place_phase gw now s1
      ⟨s2, orders_to_cancel s, true⟩

/-- Whether the fair-price check of `quote_market` passes. -/
def fair_price_ok (s : MMState) : Bool :=
  match get_fair_price s.market_state with
  | .price fp => if fp = 0 then false else true
  | _ => false

/-- The loop body of `immediate_cleanup`'s success path: mark every
currently-active tracked order cancelled in place (each order's
activity check reads its own not-yet-mutated status, exactly as the
Python iteration does). -/
def mark_all_active_cancelled (a : AccountDataState) : AccountDataState :=
  { a with
    orders := a.orders.map (fun p =>
      if is_order_active a p.1 then (p.1, { p.2 with status := some "cancelled" }) else p) }

/-- `MarketMaker.immediate_cleanup`.  When `cancel_all_orders` returns
(whatever its `success` flag says) both slots are cleared and every
active order is marked cancelled; when it raises, the `except` branch
only clears the two slots. -/
def immediate_cleanup (gw : Gateway) (s : MMState) : MMState :=
  match gw.cancel_all_orders with
  | .ok _success =>
    { s with
      current_orders := ⟨none, none⟩,
      account_state := mark_all_active_cancelled s.account_state }
  | .exn =>
    { s with current_orders := ⟨none, none⟩ }

/-- One leg of the `listPositions` response (`side` via `.get`,
missing `size` defaulted to `0`). -/
structure PositionLeg where
  side : Option String
  size : ℚ
deriving DecidableEq

/-- `self.current_position`. -/
structure CurrentPosition where
  symbol : String
  position : ℚ
  total_fills : Nat
  last_updated : Option String
deriving DecidableEq

/-- Initial `current_position` from `MarketMaker.__init__`. -/
def CurrentPosition.init : CurrentPosition := ⟨SYMBOL, 0, 0, none⟩

/-- Outcome of the `get_positions` REST call. -/
inductive PositionsResult
  | ok (positions : List PositionLeg)
  | exn
deriving DecidableEq

/-- `MarketMaker._update_position`.  The whole body sits in
`try: ... except Exception: logger.warning(...)`, so a transport
failure is swallowed; the returned flag records whether an exception
propagated to the caller (it never does). -/
def update_position (now : String) (acc : AccountDataState) (pos : CurrentPosition)
    (r : PositionsResult) : CurrentPosition × Bool :=
  match r with
  | .exn => (pos, false)
  | .ok legs =>
    let total := legs.foldl (fun t leg =>
      if leg.side = some "long" then t + leg.size
      else if leg.side = some "short" then t - leg.size
      else t) 0
    let fills := (get_filled_orders acc).length
    ({ pos with position := total, total_fills := fills, last_updated := some now }, false)

/-- Seconds until the next poll in one `position_polling_loop`
iteration: `await asyncio.sleep(10)` when `_update_position` raised,
otherwise the normal `asyncio.wait_for(..., timeout=1.0)` wait. -/
def poll_cycle_delay (now : String) (acc : AccountDataState) (pos : CurrentPosition)
    (r : PositionsResult) : Nat :=
  if (update_position now acc pos r).2 then 10 else 1

/-! ### Spec-side definitions (used for refinement statements only) -/

/-- Modelled from the spec: a symbol "has both a bid and an ask
present". -/
def bothSidesPresent (p : PriceEntry) : Bool :=
  p.bid.isSome && p.ask.isSome

/-- Modelled from the spec: `midpoint = (bid+ask)/2`. -/
def midpoint (p : PriceEntry) : ℚ :=
  (p.bid.getD 0 + p.ask.getD 0) / 2

/-! ### Concrete fixtures used by counterexamples and witnesses -/

/-- An event setting order `a1` to the terminal status `filled`. -/
def ev_filled : OrderEvent :=
  { orderId := some "a1", symbol := some SYMBOL, status := some "filled",
    executedQty := some "1.00", remainingQty := some "0.00" }

/-- A later event for the same order carrying status `submitted`. -/
def ev_submitted : OrderEvent :=
  { orderId := some "a1", symbol := some SYMBOL, status := some "submitted",
    executedQty := some "0.00", remainingQty := some "1.00" }

/-- A stored order with the non-terminal status `submitted`. -/
def od_submitted (id : String) : OrderData :=
  ⟨id, none, some SYMBOL, some "submitted", some "1.00", some "0.00", none, none, "t0"⟩

/-- A stored order with the terminal status `filled`. -/
def od_filled (id : String) : OrderData :=
  ⟨id, none, some SYMBOL, some "filled", some "0.00", some "1.00", none, none, "t0"⟩

/-- A market snapshot with both symbols fully populated
(PAXG 2000/2002, BTC 60000/60010), giving fair price 2001/60005. -/
def mkt2 : MarketDataState := ⟨⟨some 2000, some 2002⟩, ⟨some 60000, some 60010⟩⟩

/-- C10 fixture: one active tracked order `Y` sitting in the bid slot. -/
def c10_state : MMState :=
  ⟨mkt2, ⟨[("Y", od_submitted "Y")], []⟩, ⟨some "Y", none⟩⟩

/-- C10 fixture: every cancel succeeds; placements fail. -/
def c10_gateway : Gateway :=
  ⟨fun _ => .ok (), .exn, .exn, .exn⟩

/-- C2 fixture: one active tracked order `A`, one slot occupied. -/
def c2_state : MMState :=
  ⟨MarketDataState.init, ⟨[("A", od_submitted "A")], []⟩, ⟨some "A", none⟩⟩

/-- C2 fixture: `cancel_all_orders` raises. -/
def c2_gateway_exn : Gateway :=
  ⟨fun _ => .exn, .exn, .exn, .exn⟩

/-- C2 fixture: `cancel_all_orders` returns normally. -/
def c2_gateway_ok : Gateway :=
  ⟨fun _ => .exn, .exn, .exn, .ok true⟩

/-- C3 fixture: prices ready, nothing tracked, no slots occupied. -/
def c3_state : MMState := ⟨mkt2, AccountDataState.init, ⟨none, none⟩⟩

/-- C3 fixture: the bid placement succeeds (venue id `B1`) while the
ask placement raises. -/
def c3_gateway : Gateway :=
  ⟨fun _ => .exn, .ok ⟨"B1", none⟩, .exn, .exn⟩

/-- C4 fixture: the bid slot references order `X`, already `filled`. -/
def c4_state : MMState :=
  ⟨mkt2, ⟨[("X", od_filled "X")], []⟩, ⟨some "X", none⟩⟩

/-- C4 fixture: both placements raise. -/
def c4_gateway : Gateway :=
  ⟨fun _ => .exn, .exn, .exn, .exn⟩

/-- C6 fixture: both symbols have both sides present but the BTC
midpoint is zero, so the fair-price division raises. -/
def c6_zero_state : MarketDataState := ⟨⟨some 1, some 1⟩, ⟨some 0, some 0⟩⟩

/-- C8 fixture: the i-th update event for order `a` (1001 of these are
applied; the `executedQty` payload makes every history entry distinct). -/
def c8_event (i : Nat) : OrderEvent :=
  { orderId := some "a", status := some "submitted", executedQty := some (Nat.repr i) }

/-- C8 fixture: the first `n` events, oldest first. -/
def c8_events (n : Nat) : List (String × OrderEvent) :=
  (List.range n).map (fun i => ("", c8_event i))

/-- C8 fixture: the state after applying the first `n` events. -/
def c8_state (n : Nat) : AccountDataState :=
  apply_events (c8_events n) AccountDataState.init

/-- C8 fixture: the stored order after the i-th event. -/
def c8_od (i : Nat) : OrderData :=
  ⟨"a", none, none, some "submitted", none, some (Nat.repr i), none, none, ""⟩

/-- C8 fixture: the history entry appended by the i-th event. -/
def c8_entry (i : Nat) : HistoryEntry :=
  ⟨"a", if i = 0 then some "unknown" else some "submitted", some "submitted",
    some (Nat.repr i), none, none, none, ""⟩

end Roxom

namespace Roxom

/-! ## Helper lemmas -/

lemma price_symbols_upper : PRICE_SYMBOLS.map pyUpper = ["PAXGUSDT", "BTCUSDT"] := by decide

lemma find?_map_replace (m : OrdersMap) (k : String) (v : OrderData) :
    (m.map (fun p => if p.1 = k then (k, v) else p)).find? (fun p => p.1 = k) =
      if (m.find? (fun p => p.1 = k)).isSome then some (k, v) else none := by
  induction m with
  | nil => rfl
  | cons p rest ih =>
    by_cases h : p.1 = k
    · simp [List.find?_cons_of_pos, h]
    · simp only [List.map_cons, if_neg h]
      rw [List.find?_cons_of_neg _ (by simpa using h), List.find?_cons_of_neg _ (by simpa using h)]
      exact ih

lemma find?_map_replace_ne (m : OrdersMap) (k k' : String) (v : OrderData) (h : k' ≠ k) :
    (m.map (fun p => if p.1 = k then (k, v) else p)).find? (fun p => p.1 = k') =
      m.find? (fun p => p.1 = k') := by
  induction m with
  | nil => rfl
  | cons p rest ih =>
    by_cases hpk : p.1 = k
    · simp only [List.map_cons, if_pos hpk]
      rw [List.find?_cons_of_neg _ (by simpa using (Ne.symm h)),
        List.find?_cons_of_neg _ (by simp [hpk]; exact fun hh => h (hh ▸ hpk ▸ rfl))]
      exact ih
    · simp only [List.map_cons, if_neg hpk]
      by_cases hpk' : p.1 = k'
      · rw [List.find?_cons_of_pos _ (by simpa using hpk'),
          List.find?_cons_of_pos _ (by simpa using hpk')]
      · rw [List.find?_cons_of_neg _ (by simpa using hpk'),
          List.find?_cons_of_neg _ (by simpa using hpk')]
        exact ih

lemma lookupOrder_insertOrder_self (m : OrdersMap) (k : String) (v : OrderData) :
    lookupOrder (insertOrder m k v) k = some v := by
  unfold lookupOrder insertOrder
  by_cases hany : m.any (fun p => p.1 = k)
  · rw [if_pos hany, find?_map_replace]
    have hsome : (m.find? (fun p => p.1 = k)).isSome := by
      rw [List.find?_isSome]
      simpa using (List.any_eq_true.mp hany)
    rw [if_pos hsome]
    rfl
  · rw [if_neg hany, List.find?_append]
    have hnone : m.find? (fun p => p.1 = k) = none := by
      rw [List.find?_eq_none]
      intro x hx hpx
      exact hany (List.any_eq_true.mpr ⟨x, hx, hpx⟩)
    rw [hnone]
    simp [List.find?]

lemma lookupOrder_insertOrder_ne (m : OrdersMap) (k k' : String) (v : OrderData)
    (h : k' ≠ k) :
    lookupOrder (insertOrder m k v) k' = lookupOrder m k' := by
  unfold lookupOrder insertOrder
  by_cases hany : m.any (fun p => p.1 = k)
  · rw [if_pos hany, find?_map_replace_ne _ _ _ _ h]
  · rw [if_neg hany, List.find?_append]
    have : List.find? (fun p => p.1 = k') [(k, v)] = none := by
      simp [List.find?, Ne.symm h]
    rw [this]
    cases m.find? (fun p => p.1 = k') <;> rfl

/-- After an update carrying a truthy id, the stored status at that id
is exactly the event's status field. -/
lemma get_order_status_update_self (now : String) (e : OrderEvent) (s : AccountDataState)
    (oid : String) (h1 : e.orderId = some oid) (h2 : oid ≠ "") :
    get_order_status (update_order now e s) oid = e.status := by
  unfold update_order
  rw [h1]
  simp only [if_neg h2, get_order_status, lookupOrder_insertOrder_self]
  rfl

end Roxom

namespace Roxom

/-! ## Claim C1 -/

/-- C1 counterexample: `update_order` has no terminal-state check.
Starting from the empty state, a `filled` update for order `a1`
followed by a `submitted` update leaves the status `submitted`, not
`filled`, so an update after a terminal status is not a no-op. -/
theorem C1_counterexample :
    get_order_status (update_order "t1" ev_filled AccountDataState.init) "a1" = some "filled" ∧
    get_order_status
      (update_order "t2" ev_submitted (update_order "t1" ev_filled AccountDataState.init))
      "a1" = some "submitted" ∧
    (some "submitted" : Option String) ≠ some "filled" := by
  refine ⟨by decide, by decide, by decide⟩

/-- C1 amended: `update_order` replaces an order's fields wholesale
from every event regardless of any previously recorded terminal
status; in particular, after an update setting status `filled`, a
second update with any status sets exactly that event's status. -/
theorem C1_amended (n1 n2 : String) (e1 e2 : OrderEvent) (s : AccountDataState)
    (oid : String) (h1 : e1.orderId = some oid) (h2 : e1.status = some "filled")
    (h3 : e2.orderId = some oid) (h4 : oid ≠ "") :
    get_order_status (update_order n2 e2 (update_order n1 e1 s)) oid = e2.status :=
  get_order_status_update_self n2 e2 _ oid h3 h4

/-- Witness for C1 amended at the concrete fixture events. -/
theorem C1_amended_witness :
    ev_filled.orderId = some "a1" ∧ ev_filled.status = some "filled" ∧
    ev_submitted.orderId = some "a1" ∧ "a1" ≠ "" ∧
    get_order_status
      (update_order "t2" ev_submitted (update_order "t1" ev_filled AccountDataState.init))
      "a1" = ev_submitted.status :=
  ⟨by decide, by decide, by decide, by decide,
    C1_amended "t1" "t2" ev_filled ev_submitted AccountDataState.init "a1"
      (by decide) (by decide) (by decide) (by decide)⟩

/-! ## Claim C9 -/

/-- C9: an update event whose `orderId` is missing or null leaves the
whole `AccountDataState` unchanged (orders map and history alike). -/
theorem C9_no_orderId_noop (now : String) (e : OrderEvent) (s : AccountDataState)
    (h : e.orderId = none) :
    update_order now e s = s := by
  unfold update_order
  rw [h]

/-- Witness for C9 at a concrete event with no `orderId`. -/
theorem C9_no_orderId_noop_witness :
    ({ status := some "filled" } : OrderEvent).orderId = none ∧
    update_order "t" { status := some "filled" } AccountDataState.init =
      AccountDataState.init :=
  ⟨by decide, C9_no_orderId_noop "t" { status := some "filled" } AccountDataState.init (by decide)⟩

/-! ## Lemmas about the cancel-result processing -/

lemma isSome_of_status (a : AccountDataState) (oid st : String)
    (h : get_order_status a oid = some st) : (lookupOrder a.orders oid).isSome := by
  unfold get_order_status at h
  cases hl : lookupOrder a.orders oid with
  | none => rw [hl] at h; cases h
  | some od => simp

lemma set_status_cancelled_self (a : AccountDataState) (oid : String)
    (h : (lookupOrder a.orders oid).isSome) :
    get_order_status (set_status_cancelled a oid) oid = some "cancelled" := by
  unfold set_status_cancelled
  cases hl : lookupOrder a.orders oid with
  | none => rw [hl] at h; cases h
  | some od =>
    simp only [get_order_status, lookupOrder_insertOrder_self]
    rfl

lemma set_status_cancelled_lookup_ne (a : AccountDataState) (k oid : String)
    (h : oid ≠ k) :
    lookupOrder (set_status_cancelled a k).orders oid = lookupOrder a.orders oid := by
  unfold set_status_cancelled
  cases hl : lookupOrder a.orders k with
  | none => rfl
  | some od => exact lookupOrder_insertOrder_ne _ _ _ _ h

lemma set_status_cancelled_isSome (a : AccountDataState) (k oid : String)
    (h : (lookupOrder a.orders oid).isSome) :
    (lookupOrder (set_status_cancelled a k).orders oid).isSome := by
  by_cases hk : oid = k
  · subst hk
    unfold set_status_cancelled
    cases hl : lookupOrder a.orders oid with
    | none => rw [hl] at h; cases h
    | some od => simp [lookupOrder_insertOrder_self]
  · rw [set_status_cancelled_lookup_ne a k oid hk]
    exact h

lemma set_status_cancelled_preserve (a : AccountDataState) (k oid : String)
    (h : get_order_status a oid = some "cancelled") :
    get_order_status (set_status_cancelled a k) oid = some "cancelled" := by
  by_cases hk : oid = k
  · subst hk
    exact set_status_cancelled_self a oid (isSome_of_status a oid _ h)
  · unfold get_order_status
    rw [set_status_cancelled_lookup_ne a k oid hk]
    exact h

lemma cancel_step_preserve (gw : Gateway) (a : AccountDataState) (k oid : String)
    (h : get_order_status a oid = some "cancelled") :
    get_order_status (cancel_step gw a k) oid = some "cancelled" := by
  unfold cancel_step
  cases gw.cancel_order k with
  | exn => exact h
  | ok r => exact set_status_cancelled_preserve a k oid h

lemma cancel_step_isSome (gw : Gateway) (a : AccountDataState) (k oid : String)
    (h : (lookupOrder a.orders oid).isSome) :
    (lookupOrder (cancel_step gw a k).orders oid).isSome := by
  unfold cancel_step
  cases gw.cancel_order k with
  | exn => exact h
  | ok r => exact set_status_cancelled_isSome a k oid h

lemma foldl_cancel_preserve (gw : Gateway) (l : List String) (a : AccountDataState)
    (oid : String) (h : get_order_status a oid = some "cancelled") :
    get_order_status (l.foldl (cancel_step gw) a) oid = some "cancelled" := by
  induction l generalizing a with
  | nil => exact h
  | cons x xs ih => exact ih _ (cancel_step_preserve gw a x oid h)

lemma foldl_cancel_status (gw : Gateway) (l : List String) (a : AccountDataState)
    (oid : String) (hmem : oid ∈ l) (hok : gw.cancel_order oid = .ok ())
    (hsome : (lookupOrder a.orders oid).isSome) :
    get_order_status (l.foldl (cancel_step gw) a) oid = some "cancelled" := by
  induction l generalizing a with
  | nil => cases hmem
  | cons x xs ih =>
    by_cases hx : oid = x
    · subst hx
      have h1 : get_order_status (cancel_step gw a oid) oid = some "cancelled" := by
        unfold cancel_step
        rw [hok]
        exact set_status_cancelled_self a oid hsome
      exact foldl_cancel_preserve gw xs _ oid h1
    · rcases List.mem_cons.mp hmem with h | h
      · exact absurd h hx
      · exact ih _ h (cancel_step_isSome gw a x oid hsome)

lemma active_of_mem_orders_to_cancel (s : MMState) (oid : String)
    (h : oid ∈ orders_to_cancel s) :
    is_order_active s.account_state oid = true := by
  unfold orders_to_cancel at h
  have h2 := (List.mem_filter.mp h).2
  exact (Bool.and_eq_true_iff.mp h2).2

lemma isSome_of_active (a : AccountDataState) (oid : String)
    (h : is_order_active a oid = true) : (lookupOrder a.orders oid).isSome := by
  unfold is_order_active at h
  cases hl : lookupOrder a.orders oid with
  | none => rw [hl] at h; cases h
  | some od => simp

lemma inactive_of_status_cancelled (a : AccountDataState) (oid : String)
    (h : get_order_status a oid = some "cancelled") :
    is_order_active a oid = false := by
  have hsome := isSome_of_status a oid _ h
  obtain ⟨od, hod⟩ := Option.isSome_iff_exists.mp hsome
  have hst : od.status = some "cancelled" := by
    unfold get_order_status at h
    rw [hod] at h
    simpa using h
  unfold is_order_active
  simp only [hod, hst]
  rfl

/-! ## Claim C10 -/

/-- C10: when the gateway cancel for an order issued by the cancel
phase returns without error, the cancel phase itself records status
`cancelled` for that order locally, and `is_order_active` is false for
it afterwards — no private-feed confirmation is awaited. -/
theorem C10_local_cancel_mark (gw : Gateway) (s : MMState) (oid : String)
    (h1 : oid ∈ orders_to_cancel s) (h2 : gw.cancel_order oid = .ok ()) :
    get_order_status (cancel_phase gw s).account_state oid = some "cancelled" ∧
    is_order_active (cancel_phase gw s).account_state oid = false := by
  have hsome : (lookupOrder s.account_state.orders oid).isSome :=
    isSome_of_active _ _ (active_of_mem_orders_to_cancel s oid h1)
  have hst : get_order_status (cancel_phase gw s).account_state oid = some "cancelled" := by
    unfold cancel_phase
    exact foldl_cancel_status gw _ _ oid h1 h2 hsome
  exact ⟨hst, inactive_of_status_cancelled _ _ hst⟩

/-- Witness for C10 at the concrete fixture: order `Y` occupies the
bid slot, is active, and its cancel succeeds. -/
theorem C10_local_cancel_mark_witness :
    "Y" ∈ orders_to_cancel c10_state ∧
    c10_gateway.cancel_order "Y" = .ok () ∧
    get_order_status (cancel_phase c10_gateway c10_state).account_state "Y" =
      some "cancelled" :=
  ⟨by decide, by decide,
    (C10_local_cancel_mark c10_gateway c10_state "Y" (by decide) (by decide)).1⟩

/-! ## Lemmas about the emergency-cleanup marking loop -/

lemma find?_map_mark (a : AccountDataState) (m : OrdersMap) (oid : String) :
    (m.map (fun p =>
        if is_order_active a p.1 then (p.1, { p.2 with status := some "cancelled" })
        else p)).find? (fun p => p.1 = oid) =
      (m.find? (fun p => p.1 = oid)).map (fun p =>
        if is_order_active a oid then (p.1, { p.2 with status := some "cancelled" })
        else p) := by
  induction m with
  | nil => rfl
  | cons p rest ih =>
    simp only [List.map_cons]
    by_cases hp : p.1 = oid
    · subst hp
      rw [List.find?_cons_of_pos _ (by by_cases ha : is_order_active a p.1 <;> simp [ha]),
        List.find?_cons_of_pos _ (by simp)]
      simp
    · rw [List.find?_cons_of_neg _ (by by_cases ha : is_order_active a p.1 <;> simp [ha, hp]),
        List.find?_cons_of_neg _ (by simpa using hp), ih]

lemma status_mark_all_active (a : AccountDataState) (oid : String)
    (h : is_order_active a oid = true) :
    get_order_status (mark_all_active_cancelled a) oid = some "cancelled" := by
  have hsome := isSome_of_active a oid h
  unfold lookupOrder at hsome
  obtain ⟨p, hp⟩ : ∃ p, a.orders.find? (fun q => q.1 = oid) = some p := by
    cases hf : a.orders.find? (fun q => q.1 = oid) with
    | none => rw [hf] at hsome; cases hsome
    | some p => exact ⟨p, rfl⟩
  unfold get_order_status mark_all_active_cancelled lookupOrder
  simp only
  rw [find?_map_mark a a.orders oid, hp]
  simp [h]

/-! ## Claim C2 -/

/-- C2 counterexample: when `cancel_all_orders` raises, the `except`
branch of `immediate_cleanup` clears the two quote slots but does not
mark the previously-active order `A` as cancelled — its status stays
`submitted`. -/
theorem C2_counterexample :
    is_order_active c2_state.account_state "A" = true ∧
    (immediate_cleanup c2_gateway_exn c2_state).current_orders.bid_id = none ∧
    (immediate_cleanup c2_gateway_exn c2_state).current_orders.ask_id = none ∧
    get_order_status (immediate_cleanup c2_gateway_exn c2_state).account_state "A" =
      some "submitted" ∧
    (some "submitted" : Option String) ≠ some "cancelled" := by
  refine ⟨by decide, by decide, by decide, by decide, by decide⟩

/-- C2 amended: `immediate_cleanup` always nulls both quote slots; it
marks every previously-active order `cancelled` (and inactive) exactly
when `cancel_all_orders` returns without raising, whatever the
response's success flag; when the call raises, order statuses are left
untouched. -/
theorem C2_amended (gw : Gateway) (s : MMState) :
    (immediate_cleanup gw s).current_orders.bid_id = none ∧
    (immediate_cleanup gw s).current_orders.ask_id = none ∧
    (∀ b, gw.cancel_all_orders = .ok b →
      ∀ oid, is_order_active s.account_state oid = true →
        get_order_status (immediate_cleanup gw s).account_state oid = some "cancelled" ∧
        is_order_active (immediate_cleanup gw s).account_state oid = false) ∧
    (gw.cancel_all_orders = .exn →
      (immediate_cleanup gw s).account_state = s.account_state) := by
  unfold immediate_cleanup
  cases hc : gw.cancel_all_orders with
  | ok b =>
    refine ⟨rfl, rfl, ?_, ?_⟩
    · intro b' _ oid hact
      have hstat := status_mark_all_active s.account_state oid hact
      exact ⟨hstat, inactive_of_status_cancelled _ _ hstat⟩
    · intro hexn
      cases hexn
  | exn =>
    refine ⟨rfl, rfl, ?_, fun _ => rfl⟩
    intro b hb
    cases hb

/-- Witness for C2 amended: with a non-raising `cancel_all_orders` the
active order `A` ends up cancelled, and with a raising one the account
state is untouched. -/
theorem C2_amended_witness :
    c2_gateway_ok.cancel_all_orders = .ok true ∧
    is_order_active c2_state.account_state "A" = true ∧
    get_order_status (immediate_cleanup c2_gateway_ok c2_state).account_state "A" =
      some "cancelled" ∧
    c2_gateway_exn.cancel_all_orders = .exn ∧
    (immediate_cleanup c2_gateway_exn c2_state).account_state = c2_state.account_state :=
  ⟨by decide, by decide,
    ((C2_amended c2_gateway_ok c2_state).2.2.1 true (by decide) "A" (by decide)).1,
    by decide,
    (C2_amended c2_gateway_exn c2_state).2.2.2 (by decide)⟩

/-! ## Lemmas about the quoting cycle -/

lemma mkt2_has_data : has_data mkt2 (PRICE_SYMBOLS.map pyUpper) = true := by decide

lemma mkt2_fair : get_fair_price mkt2 = FairPriceResult.price (2001 / 60005) := by
  unfold get_fair_price
  rw [if_neg (fun h => h mkt2_has_data)]
  have h1 : get_price mkt2 "PAXGUSDT" = some ⟨some 2000, some 2002⟩ := by decide
  have h2 : get_price mkt2 "BTCUSDT" = some ⟨some 60000, some 60010⟩ := by decide
  rw [h1, h2]
  norm_num

/-- Once the fair-price check passes, `quote_market` is the cancel
phase followed by the place phase. -/
lemma quote_market_run (gw : Gateway) (now : String) (s : MMState)
    (hf : fair_price_ok s = true) :
    quote_market gw now s =
      ⟨place_phase gw now (cancel_phase gw s), orders_to_cancel s, true⟩ := by
  unfold fair_price_ok at hf
  unfold quote_market
  cases hfp : get_fair_price s.market_state with
  | absent => rw [hfp] at hf; cases hf
  | raises => rw [hfp] at hf; cases hf
  | price fp =>
    rw [hfp] at hf
    simp only [] at hf
    by_cases h0 : fp = 0
    · rw [if_pos h0] at hf; cases hf
    · simp only []
      rw [if_neg h0]

lemma fair_price_ok_mkt2 (s : MMState) (hm : s.market_state = mkt2) :
    fair_price_ok s = true := by
  unfold fair_price_ok
  rw [hm, mkt2_fair]
  simp only []
  rw [if_neg (by norm_num)]

/-- If either placement raises, the place phase leaves the state as it
found it (the gather re-raises before any recording). -/
lemma place_phase_fail (gw : Gateway) (now : String) (s1 : MMState)
    (h : gw.place_bid = .exn ∨ gw.place_ask = .exn) :
    place_phase gw now s1 = s1 := by
  unfold place_phase
  cases hb : gw.place_bid with
  | exn => rfl
  | ok bres =>
    cases ha : gw.place_ask with
    | exn => rfl
    | ok ares =>
      rcases h with h | h
      · rw [hb] at h; cases h
      · rw [ha] at h; cases h

/-- When both placements succeed, both slots end up holding the
returned venue ids. -/
lemma place_phase_ok (gw : Gateway) (now : String) (s1 : MMState)
    (bres ares : PlaceResponse) (hb : gw.place_bid = .ok bres)
    (ha : gw.place_ask = .ok ares) :
    (place_phase gw now s1).current_orders.bid_id = some bres.orderId ∧
    (place_phase gw now s1).current_orders.ask_id = some ares.orderId := by
  unfold place_phase
  rw [hb, ha]
  exact ⟨rfl, rfl⟩

/-! ## Claim C3 -/

/-- C3 counterexample: the bid placement succeeds with venue id `B1`
while the ask placement raises; nevertheless the bid id is neither
written into the bid slot nor registered in the order state — the
`gather` without `return_exceptions` aborts before either recording. -/
theorem C3_counterexample :
    c3_gateway.place_bid = .ok ⟨"B1", none⟩ ∧
    c3_gateway.place_ask = .exn ∧
    (quote_market c3_gateway "t" c3_state).place_attempted = true ∧
    (quote_market c3_gateway "t" c3_state).state.current_orders.bid_id = none ∧
    get_order (quote_market c3_gateway "t" c3_state).state.account_state "B1" = none := by
  rw [quote_market_run c3_gateway "t" c3_state (fair_price_ok_mkt2 _ rfl)]
  refine ⟨by decide, by decide, by decide, by decide, by decide⟩

/-- C3 amended: if either of the two concurrent placements raises,
neither side is recorded — the quote slots keep their pre-cycle values
and the order state is exactly what the cancel phase left; ids are
recorded only when both placements succeed. -/
theorem C3_amended (gw : Gateway) (now : String) (s : MMState)
    (hf : fair_price_ok s = true)
    (hfail : gw.place_bid = .exn ∨ gw.place_ask = .exn) :
    (quote_market gw now s).state.current_orders = s.current_orders ∧
    (quote_market gw now s).state.account_state = (cancel_phase gw s).account_state := by
  rw [quote_market_run gw now s hf, place_phase_fail gw now _ hfail]
  exact ⟨rfl, rfl⟩

/-- Witness for C3 amended at the concrete fixture. -/
theorem C3_amended_witness :
    fair_price_ok c3_state = true ∧
    c3_gateway.place_ask = .exn ∧
    (quote_market c3_gateway "t" c3_state).state.current_orders =
      c3_state.current_orders :=
  ⟨fair_price_ok_mkt2 _ rfl, by decide,
    (C3_amended c3_gateway "t" c3_state (fair_price_ok_mkt2 _ rfl)
      (Or.inr (by decide))).1⟩

/-! ## Claim C4 -/

/-- C4 counterexample: the bid slot references order `X`, already
`filled`.  The cycle issues no cancel call for it and still reaches
the place phase, but it does not clear the slot: with the placements
failing, the slot still holds `X` after the cycle. -/
theorem C4_counterexample :
    is_order_active c4_state.account_state "X" = false ∧
    orders_to_cancel c4_state = [] ∧
    (quote_market c4_gateway "t" c4_state).place_attempted = true ∧
    (quote_market c4_gateway "t" c4_state).state.current_orders.bid_id = some "X" ∧
    (some "X" : Option String) ≠ none := by
  rw [quote_market_run c4_gateway "t" c4_state (fair_price_ok_mkt2 _ rfl)]
  refine ⟨by decide, by decide, by decide, by decide, by decide⟩

/-- C4 amended: for a slot holding the id of an inactive order, the
cycle issues no gateway cancel for that id and still attempts both
placements, but the slot reference is not cleared: it is never set to
null — it keeps the stale id if either placement fails and is only
replaced by the new venue id when both placements succeed. -/
theorem C4_amended (gw : Gateway) (now : String) (s : MMState)
    (hf : fair_price_ok s = true) :
    (quote_market gw now s).place_attempted = true ∧
    (∀ oid, s.current_orders.bid_id = some oid →
      is_order_active s.account_state oid = false →
        oid ∉ orders_to_cancel s ∧
        (quote_market gw now s).state.current_orders.bid_id ≠ none ∧
        ((gw.place_bid = .exn ∨ gw.place_ask = .exn) →
          (quote_market gw now s).state.current_orders.bid_id = some oid)) ∧
    (∀ oid, s.current_orders.ask_id = some oid →
      is_order_active s.account_state oid = false →
        oid ∉ orders_to_cancel s ∧
        (quote_market gw now s).state.current_orders.ask_id ≠ none ∧
        ((gw.place_bid = .exn ∨ gw.place_ask = .exn) →
          (quote_market gw now s).state.current_orders.ask_id = some oid)) := by
  rw [quote_market_run gw now s hf]
  refine ⟨rfl, ?_, ?_⟩
  · intro oid hslot hact
    refine ⟨?_, ?_, ?_⟩
    · intro hmem
      rw [active_of_mem_orders_to_cancel s oid hmem] at hact
      cases hact
    · cases hb : gw.place_bid with
      | exn =>
        rw [place_phase_fail gw now _ (Or.inl hb)]
        show (cancel_phase gw s).current_orders.bid_id ≠ none
        simp only [cancel_phase]
        rw [hslot]
        exact fun h => by cases h
      | ok bres =>
        cases ha : gw.place_ask with
        | exn =>
          rw [place_phase_fail gw now _ (Or.inr ha)]
          show (cancel_phase gw s).current_orders.bid_id ≠ none
          simp only [cancel_phase]
          rw [hslot]
          exact fun h => by cases h
        | ok ares =>
          rw [(place_phase_ok gw now _ bres ares hb ha).1]
          exact fun h => by cases h
    · intro hfail
      rw [place_phase_fail gw now _ hfail]
      show (cancel_phase gw s).current_orders.bid_id = some oid
      simp only [cancel_phase]
      exact hslot
  · intro oid hslot hact
    refine ⟨?_, ?_, ?_⟩
    · intro hmem
      rw [active_of_mem_orders_to_cancel s oid hmem] at hact
      cases hact
    · cases hb : gw.place_bid with
      | exn =>
        rw [place_phase_fail gw now _ (Or.inl hb)]
        show (cancel_phase gw s).current_orders.ask_id ≠ none
        simp only [cancel_phase]
        rw [hslot]
        exact fun h => by cases h
      | ok bres =>
        cases ha : gw.place_ask with
        | exn =>
          rw [place_phase_fail gw now _ (Or.inr ha)]
          show (cancel_phase gw s).current_orders.ask_id ≠ none
          simp only [cancel_phase]
          rw [hslot]
          exact fun h => by cases h
        | ok ares =>
          rw [(place_phase_ok gw now _ bres ares hb ha).2]
          exact fun h => by cases h
    · intro hfail
      rw [place_phase_fail gw now _ hfail]
      show (cancel_phase gw s).current_orders.ask_id = some oid
      simp only [cancel_phase]
      exact hslot

/-- Witness for C4 amended at the concrete fixture. -/
theorem C4_amended_witness :
    fair_price_ok c4_state = true ∧
    c4_state.current_orders.bid_id = some "X" ∧
    is_order_active c4_state.account_state "X" = false ∧
    "X" ∉ orders_to_cancel c4_state :=
  ⟨fair_price_ok_mkt2 _ rfl, by decide, by decide,
    (((C4_amended c4_gateway "t" c4_state (fair_price_ok_mkt2 _ rfl)).2.1 "X"
      (by decide) (by decide)).1)⟩

/-! ## Claim C5 -/

/-- C5: evaluation at the failing input.  A transport failure of
`get_positions` is caught inside `_update_position` itself (its whole
body is wrapped in `try/except Exception`), so it never reaches the
polling loop's own `except` — the 10-second backoff is dead code and
the next poll happens after the normal 1-second wait.  The second
conjunct shows no `get_positions` outcome whatsoever reaches the
backoff branch. -/
theorem C5_transport_failure_delay :
    poll_cycle_delay "t" AccountDataState.init CurrentPosition.init PositionsResult.exn = 1 ∧
    (∀ now acc pos r, poll_cycle_delay now acc pos r = 1) ∧
    (1 : Nat) ≠ 10 := by
  refine ⟨rfl, fun now acc pos r => ?_, by decide⟩
  unfold poll_cycle_delay update_position
  cases r <;> rfl

/-! ## Lemmas about get_price / has_data -/

lemma get_price_paxg (s : MarketDataState) : get_price s "PAXGUSDT" = some s.paxg := rfl

lemma get_price_btc (s : MarketDataState) : get_price s "BTCUSDT" = some s.btc := by
  unfold get_price
  rw [if_neg (by decide), if_pos rfl]

lemma has_data_both (s : MarketDataState) :
    has_data s (PRICE_SYMBOLS.map pyUpper) =
      (bothSidesPresent s.paxg && bothSidesPresent s.btc) := by
  rw [price_symbols_upper]
  unfold has_data bothSidesPresent
  simp only [List.all_cons, List.all_nil, get_price_paxg, get_price_btc]
  simp [Bool.and_assoc]

/-! ## Claim C6 -/

/-- C6 counterexample: with PAXG at 1/1 and BTC at 0/0 both symbols
have both sides present, yet `get_fair_price` raises
(`ZeroDivisionError` on the zero BTC midpoint) instead of returning
the ratio of midpoints. -/
theorem C6_counterexample :
    bothSidesPresent c6_zero_state.paxg = true ∧
    bothSidesPresent c6_zero_state.btc = true ∧
    get_fair_price c6_zero_state = FairPriceResult.raises ∧
    FairPriceResult.raises ≠
      FairPriceResult.price (midpoint c6_zero_state.paxg / midpoint c6_zero_state.btc) := by
  refine ⟨by decide, by decide, ?_, by intro h; cases h⟩
  unfold get_fair_price
  rw [if_neg (fun h => h (by decide : has_data c6_zero_state (PRICE_SYMBOLS.map pyUpper) = true))]
  have h1 : get_price c6_zero_state "PAXGUSDT" = some ⟨some 1, some 1⟩ := by decide
  have h2 : get_price c6_zero_state "BTCUSDT" = some ⟨some 0, some 0⟩ := by decide
  rw [h1, h2]
  norm_num

/-- C6 amended: `get_fair_price` returns the ratio of midpoints
exactly when both symbols have both sides present and the BTC
midpoint is nonzero; it returns absent when any side is missing; and
it raises when both symbols are present but the BTC midpoint is
zero. -/
theorem C6_amended (s : MarketDataState) :
    get_fair_price s =
      if bothSidesPresent s.paxg && bothSidesPresent s.btc then
        (if midpoint s.btc = 0 then FairPriceResult.raises
         else FairPriceResult.price (midpoint s.paxg / midpoint s.btc))
      else FairPriceResult.absent := by
  obtain ⟨⟨pb, pa⟩, ⟨bb, ba⟩⟩ := s
  unfold get_fair_price
  rw [has_data_both, get_price_paxg, get_price_btc]
  cases pb <;> cases pa <;> cases bb <;> cases ba <;>
    simp [bothSidesPresent, midpoint]

/-! ## Claim C7 -/

/-- C7: for every positive fair price, before rounding the ask/bid
difference is exactly `fairPrice * spreadBps / 10000` (with half the
spread on each side), and each returned price is an exact integer
multiple of the tick size after rounding to the nearest tick. -/
theorem C7_quote_formula (fair_price : ℚ) (h : 0 < fair_price) :
    ((fair_price + fair_price * SPREAD_BPS / 10000 / 2) -
        (fair_price - fair_price * SPREAD_BPS / 10000 / 2) =
      fair_price * SPREAD_BPS / 10000) ∧
    (calculate_bid_ask_prices fair_price).1 =
      (roundHalfEven ((fair_price - fair_price * SPREAD_BPS / 10000 / 2) / TICK_SIZE) : ℚ)
        * TICK_SIZE ∧
    (calculate_bid_ask_prices fair_price).2 =
      (roundHalfEven ((fair_price + fair_price * SPREAD_BPS / 10000 / 2) / TICK_SIZE) : ℚ)
        * TICK_SIZE ∧
    (∃ k : ℤ, (calculate_bid_ask_prices fair_price).1 = k * TICK_SIZE) ∧
    (∃ m : ℤ, (calculate_bid_ask_prices fair_price).2 = m * TICK_SIZE) := by
  have harg_b : fair_price - fair_price * (SPREAD_BPS / 10000) / 2 =
      fair_price - fair_price * SPREAD_BPS / 10000 / 2 := by ring
  have harg_a : fair_price + fair_price * (SPREAD_BPS / 10000) / 2 =
      fair_price + fair_price * SPREAD_BPS / 10000 / 2 := by ring
  have h2 : (calculate_bid_ask_prices fair_price).1 =
      (roundHalfEven ((fair_price - fair_price * SPREAD_BPS / 10000 / 2) / TICK_SIZE) : ℚ)
        * TICK_SIZE := by
    simp only [calculate_bid_ask_prices]
    rw [harg_b]
  have h3 : (calculate_bid_ask_prices fair_price).2 =
      (roundHalfEven ((fair_price + fair_price * SPREAD_BPS / 10000 / 2) / TICK_SIZE) : ℚ)
        * TICK_SIZE := by
    simp only [calculate_bid_ask_prices]
    rw [harg_a]
  exact ⟨by ring, h2, h3, ⟨_, h2⟩, ⟨_, h3⟩⟩

/-- Witness for C7 at `fairPrice = 50000`. -/
theorem C7_quote_formula_witness :
    (0 : ℚ) < 50000 ∧
    ((50000 + 50000 * SPREAD_BPS / 10000 / 2) -
        (50000 - 50000 * SPREAD_BPS / 10000 / 2) =
      50000 * SPREAD_BPS / 10000) ∧
    (∃ k : ℤ, (calculate_bid_ask_prices 50000).1 = k * TICK_SIZE) :=
  ⟨by norm_num,
    (C7_quote_formula 50000 (by norm_num)).1,
    (C7_quote_formula 50000 (by norm_num)).2.2.2.1⟩

/-! ## Lemmas about the history ring bound -/

lemma update_order_history_le (now : String) (e : OrderEvent) (s : AccountDataState)
    (h : s.order_history.length ≤ 1000) :
    (update_order now e s).order_history.length ≤ 1000 := by
  unfold update_order
  cases e.orderId with
  | none => exact h
  | some oid =>
    simp only []
    by_cases h0 : oid = ""
    · rw [if_pos h0]; exact h
    · rw [if_neg h0]
      simp only []
      split
      · rename_i hgt
        rw [List.length_drop]
        omega
      · rename_i hle
        simp only [List.length_append, List.length_cons, List.length_nil] at hle ⊢
        omega

lemma apply_events_history_le (evs : List (String × OrderEvent)) (s : AccountDataState)
    (h : s.order_history.length ≤ 1000) :
    (apply_events evs s).order_history.length ≤ 1000 := by
  induction evs generalizing s with
  | nil => exact h
  | cons e rest ih => exact ih _ (update_order_history_le e.1 e.2 s h)

lemma lookupOrder_singleton (k : String) (v : OrderData) :
    lookupOrder [(k, v)] k = some v := by
  unfold lookupOrder
  rw [List.find?_cons_of_pos _ (by simp)]
  rfl

lemma insertOrder_singleton (k : String) (v w : OrderData) :
    insertOrder [(k, v)] k w = [(k, w)] := by
  unfold insertOrder
  rw [if_pos (by simp)]
  simp

lemma update_order_singleton (now : String) (e : OrderEvent) (oid : String) (v : OrderData)
    (H : List HistoryEntry) (he : e.orderId = some oid) (h0 : oid ≠ "") :
    update_order now e ⟨[(oid, v)], H⟩ =
      ⟨[(oid, ⟨oid, e.accountId, e.symbol, e.status, e.remainingQty,
          e.executedQty, e.avgPx, e.timestamp, now⟩)],
        if (H ++ [(⟨oid, v.status, e.status, e.executedQty, e.remainingQty,
            e.avgPx, e.timestamp, now⟩ : HistoryEntry)]).length > 1000 then
          (H ++ [(⟨oid, v.status, e.status, e.executedQty, e.remainingQty,
              e.avgPx, e.timestamp, now⟩ : HistoryEntry)]).drop
            ((H ++ [(⟨oid, v.status, e.status, e.executedQty, e.remainingQty,
                e.avgPx, e.timestamp, now⟩ : HistoryEntry)]).length - 1000)
        else H ++ [(⟨oid, v.status, e.status, e.executedQty, e.remainingQty,
            e.avgPx, e.timestamp, now⟩ : HistoryEntry)]⟩ := by
  unfold update_order
  rw [he]
  simp only [if_neg h0, lookupOrder_singleton, insertOrder_singleton]

/-- Closed form for the C8 state after `n ≥ 1` updates: the single
tracked order carries the latest payload, and the history is the last
(at most 1000) of the `n` ideal entries. -/
lemma c8_closed (n : Nat) (hn : 1 ≤ n) :
    c8_state n = ⟨[("a", c8_od (n - 1))],
      ((List.range n).map c8_entry).drop (n - 1000)⟩ := by
  induction n with
  | zero => cases hn
  | succ m ih =>
    by_cases hm : m = 0
    · subst hm
      decide
    · have hm1 : 1 ≤ m := Nat.one_le_iff_ne_zero.mpr hm
      have ih' := ih hm1
      have hstep : c8_state (m + 1) = update_order "" (c8_event m) (c8_state m) := by
        unfold c8_state c8_events apply_events
        rw [List.range_succ, List.map_append, List.foldl_append]
        rfl
      rw [hstep, ih',
        update_order_singleton "" (c8_event m) "a" (c8_od (m - 1)) _ rfl (by decide)]
      have hent : (⟨"a", (c8_od (m - 1)).status, (c8_event m).status,
          (c8_event m).executedQty, (c8_event m).remainingQty, (c8_event m).avgPx,
          (c8_event m).timestamp, ""⟩ : HistoryEntry) = c8_entry m := by
        simp [c8_od, c8_event, c8_entry, if_neg hm]
      have hod : (⟨"a", (c8_event m).accountId, (c8_event m).symbol, (c8_event m).status,
          (c8_event m).remainingQty, (c8_event m).executedQty, (c8_event m).avgPx,
          (c8_event m).timestamp, ""⟩ : OrderData) = c8_od m := by
        simp [c8_event, c8_od]
      rw [hent, hod]
      have hlenM : ((List.range m).map c8_entry).length = m := by
        simp
      have hlenH : (((List.range m).map c8_entry).drop (m - 1000)).length = m - (m - 1000) := by
        simp
      refine congrArg (fun h => AccountDataState.mk [("a", c8_od m)] h) ?_
      by_cases hl : m < 1000
      · have hd0 : m - 1000 = 0 := by omega
        have hd1 : m + 1 - 1000 = 0 := by omega
        rw [hd0, hd1, List.drop_zero, List.drop_zero,
          if_neg (by simp [hd0]; omega), List.range_succ, List.map_append]
        simp
      · have hge : 1000 ≤ m := by omega
        have hcond : ((((List.range m).map c8_entry).drop (m - 1000)) ++ [c8_entry m]).length > 1000 := by
          simp only [List.length_append, List.length_cons, List.length_nil, hlenH]
          omega
        rw [if_pos hcond]
        have hL : ((((List.range m).map c8_entry).drop (m - 1000)) ++ [c8_entry m]).length - 1000 = 1 := by
          simp only [List.length_append, List.length_cons, List.length_nil, hlenH]
          omega
        rw [hL, List.drop_append_of_le_length (by rw [hlenH]; omega),
          List.drop_drop]
        have harith : m - 1000 + 1 = m + 1 - 1000 := by omega
        rw [harith, List.range_succ, List.map_append,
          List.drop_append_of_le_length (by rw [hlenM]; omega)]
        simp

/-! ## Claim C8 -/

/-- C8: after any sequence of updates starting from the empty state
the history holds at most 1000 entries; concretely, after 1001
inserted history entries the history holds exactly 1000 of them, the
earliest entry is gone and the 1001st is present (oldest dropped
first). -/
theorem C8_history_ring :
    (∀ evs, (apply_events evs AccountDataState.init).order_history.length ≤ 1000) ∧
    (c8_state 1001).order_history.length = 1000 ∧
    c8_entry 0 ∉ (c8_state 1001).order_history ∧
    c8_entry 1000 ∈ (c8_state 1001).order_history := by
  have hclosed := c8_closed 1001 (by norm_num)
  have hhist : (c8_state 1001).order_history =
      ((List.range 1000).map (c8_entry ∘ Nat.succ)) := by
    rw [hclosed]
    rw [show (1001 - 1000 : Nat) = 1 from rfl]
    rw [List.range_succ_eq_map, List.map_cons]
    rw [List.drop_succ_cons, List.drop_zero]
    rw [List.map_map]
  refine ⟨?_, ?_, ?_, ?_⟩
  · intro evs
    exact apply_events_history_le evs AccountDataState.init (by simp [AccountDataState.init])
  · rw [hhist]
    simp
  · rw [hhist]
    intro hmem
    obtain ⟨j, _, heq⟩ := List.mem_map.mp hmem
    have hps := congrArg HistoryEntry.previousStatus heq
    simp [c8_entry, Function.comp] at hps
  · rw [hhist]
    exact List.mem_map.mpr
      ⟨999, List.mem_range.mpr (by norm_num),
        show c8_entry (Nat.succ 999) = c8_entry 1000 from congrArg c8_entry (by norm_num)⟩

end Roxom
